import Mathlib

/-!
Verification of the Data-Quality-Review-Hub change-reconciliation core.

Shallow embedding of the repository's core functions
(`src/models/shop_orders.py`, `src/app.py`) and proofs of the frozen
claims about them.

Modelling conventions:
* pandas cell values reaching the validator are modelled by the string
  `str(value)` that the Python code itself computes before every check
  (`astype(str)` in the VARCHAR branch, `Decimal(str(value))` in the
  numeric branch); a missing value (`NaN`/`NA`/`None`) is `Option.none`
  and is removed by `dropna`, modelled as `List.filterMap id`.
* machine integers are `Int`/`Nat`; Python `int()` of the metadata
  numbers is modelled by taking the values as `Int` directly.
* fallible Python code (an uncaught `TypeError`) is modelled with
  `Except`.
-/

/-- The single-quote character `'` used by the Python f-string messages. -/
def pyQuote : String := "\x27"

/-- Python `str.upper()` (ASCII range; identifiers crossing the
UI/store boundary in this program are ASCII). -/
def pyUpper (s : String) : String :=
  String.mk (s.data.map Char.toUpper)

/-- Model of `_db_col_name` from `src/models/shop_orders.py`:
`display_col.upper().replace(" ", "_")`. -/
def dbColName (s : String) : String :=
  String.mk ((pyUpper s).data.map (fun c => if c = ' ' then '_' else c))

/-- Python's `sub in s` substring test, used for the
`"CHAR" in dtype or "TEXT" in dtype or "STRING" in dtype` check. -/
def containsSub (s pat : String) : Bool :=
  s.data.tails.any (fun t => pat.data.isPrefixOf t)

/-! Python `decimal.Decimal` string parsing.

The numeric branch of `validate_changes_against_schema` computes
`Decimal(str(value)).copy_abs()` and then reads
`as_tuple().digits` / `as_tuple().exponent`.  We model the CPython
decimal string grammar: after stripping leading/trailing whitespace and
removing underscores, a decimal literal is
`[sign] ( digits [. digits] | . digits ) [ (e|E) [sign] digits ]`,
or a special value (`Inf`, `Infinity`, `[s]NaN[digits]`,
case-insensitively).  The stored coefficient is the digit string with
leading zeros removed (`(0)` when all digits are zero) and the stored
exponent is the explicit exponent minus the number of fractional
digits.  For a special value `as_tuple().exponent` is a Python `str`,
so the comparison `exponent >= 0` in the validator raises `TypeError`.
-/

/-- A parsed Python `Decimal`: a finite value carries the sign, the
coefficient digits and the exponent of `as_tuple()`; `special` stands
for the `NaN`/`Infinity` family. -/
inductive PyDec where
  | finite (sign : Bool) (digits : List Nat) (exponent : Int)
  | special
deriving DecidableEq, Repr

/-- Python-style whitespace stripped by `str.strip()` (ASCII subset). -/
def isPyWs (c : Char) : Bool :=
  c = ' ' || c = '\t' || c = '\n' || c = '\x0d' || c = '\x0b' || c = '\x0c'

/-- Preprocessing `value.strip().replace("_", "")` done by the `Decimal` constructor. -/
def pyDecPreprocess (s : String) : List Char :=
  (((s.data.dropWhile isPyWs).reverse.dropWhile isPyWs).reverse).filter (fun c => c ≠ '_')

/-- Take the longest prefix of decimal digits, returning their values. -/
def takeDigits : List Char → List Nat × List Char
  | [] => ([], [])
  | c :: rest =>
    if c.isDigit then
      let (ds, r) := takeDigits rest
      ((c.toNat - 48) :: ds, r)
    else ([], c :: rest)

/-- Numeric value of a digit list (most significant first). -/
def digitsToNat (ds : List Nat) : Nat :=
  ds.foldl (fun acc d => acc * 10 + d) 0

/-- Coefficient part of the decimal grammar: requires the lookahead
`(?=\d|\.\d)`, then `\d*(\.\d*)?`.  Returns
(all coefficient digits, number of fractional digits, rest). -/
def parseCoeff : List Char → Option (List Nat × Nat × List Char)
  | [] => none
  | c :: r =>
    let lookahead : Bool :=
      c.isDigit ||
        (c == '.' && (match r with
          | c2 :: _ => c2.isDigit
          | [] => false))
    if lookahead then
      let (ip, r1) := takeDigits (c :: r)
      match r1 with
      | '.' :: r2 =>
        let (fp, r3) := takeDigits r2
        some (ip ++ fp, fp.length, r3)
      | _ => some (ip, 0, r1)
    else none

/-- Exponent part `((e|E) [sign] digits)?`; the whole input must be
consumed.  Returns the signed exponent value. -/
def parseExpPart : List Char → Option Int
  | [] => some 0
  | c :: rest =>
    if c = 'e' || c = 'E' then
      let (sg, rest2) : Int × List Char :=
        match rest with
        | '+' :: r => (1, r)
        | '-' :: r => (-1, r)
        | r => (1, r)
      let (ds, rest3) := takeDigits rest2
      if ds.isEmpty || !rest3.isEmpty then none
      else some (sg * (digitsToNat ds : Int))
    else none

/-- Strip leading zeros of the coefficient; an all-zero coefficient is
stored as the single digit `0` (CPython stores `str(int(digit_string))`). -/
def normDigits (ds : List Nat) : List Nat :=
  let t := ds.dropWhile (fun d => d = 0)
  if t.isEmpty then [0] else t

/-- Case-insensitive match of the special bodies
`inf`, `infinity`, `nan<digits>`, `snan<digits>`. -/
def isSpecialBody (cs : List Char) : Bool :=
  let low := cs.map Char.toLower
  let nanTail (t : List Char) : Bool :=
    match t with
    | 'n' :: 'a' :: 'n' :: ds => ds.all Char.isDigit
    | _ => false
  low = ['i', 'n', 'f'] ||
  low = ['i', 'n', 'f', 'i', 'n', 'i', 't', 'y'] ||
  nanTail low ||
  (match low with
   | 's' :: t => nanTail t
   | _ => false)

/-- Parse the decimal body after the optional sign. -/
def pyDecParseBody (sign : Bool) (cs : List Char) : Option PyDec :=
  match parseCoeff cs with
  | some (ds, fl, rest) =>
    match parseExpPart rest with
    | some e => some (.finite sign (normDigits ds) (e - (fl : Int)))
    | none => none
  | none => if isSpecialBody cs then some .special else none

/-- Parse a preprocessed decimal literal (sign then body). -/
def pyDecParseChars : List Char → Option PyDec
  | [] => pyDecParseBody false []
  | c :: r =>
    if c == '-' then pyDecParseBody true r
    else if c == '+' then pyDecParseBody false r
    else pyDecParseBody false (c :: r)

/-- Model of `Decimal(str(value))`: `none` models the
`InvalidOperation`/`ValueError` caught by the validator. -/
def pyDecParse (s : String) : Option PyDec :=
  pyDecParseChars (pyDecPreprocess s)

/-! Section: The numeric NUMBER(p,s) check (lines 199-231 of shop_orders.py) -/

/-- The `frac_digits` count as computed by the validator from the exponent. -/
def fracDigitsOf (e : Int) : Int :=
  if e ≥ 0 then 0 else -e

/-- The `int_digits` count as computed by the validator from digits and exponent. -/
def intDigitsOf (digits : List Nat) (e : Int) : Int :=
  if e ≥ 0 then (digits.length : Int) + e
  else max ((digits.length : Int) + e) 0

/-- Verdict of the numeric per-value check.  `special` stands for the
`TypeError` raised when `as_tuple().exponent` is a string (`NaN`/`Inf`). -/
inductive NumClass where
  | ok
  | invalid
  | scaleViol (frac : Int)
  | precViol
  | special
deriving DecidableEq, Repr

/-- Per-value numeric classification, mirroring the body of the
`for value in changes_df[display_col].dropna()` loop: parse via
`Decimal(str(value)).copy_abs()` (the sign is discarded), derive
`int_digits`/`frac_digits`/`total_digits`, then apply the scale check
followed by the precision/overflow check. -/
def classifyDec (p s : Int) : Option PyDec → NumClass
  | none => .invalid
  | some .special => .special
  | some (.finite _ digits e) =>
    let intD := intDigitsOf digits e
    let fracD := fracDigitsOf e
    let totalD := intD + fracD
    let maxIntD := max (p - s) 0
    if fracD > s then .scaleViol fracD
    else if intD > maxIntD || totalD > p then .precViol
    else .ok

/-- The per-value verdict on the string form of a value. -/
def numClassify (p s : Int) (v : String) : NumClass :=
  classifyDec p s (pyDecParse v)

/-! Section: Schema metadata and the changed-cells table -/

/-- One row of the `information_schema.columns` query issued by
`get_table_schema_metadata` (store-native column name; `none` models a
SQL NULL, i.e. `pd.notna(...)` false). -/
structure ColumnConstraint where
  column_name : String
  data_type : String
  character_maximum_length : Option Int
  numeric_precision : Option Int
  numeric_scale : Option Int
deriving DecidableEq, Repr

/-- The changed-cells frame handed to the validator: display-named
columns, each holding its new values in row order (`none` = null). -/
structure ChangesDF where
  cols : List (String × List (Option String))
deriving DecidableEq, Repr

/-- pandas `DataFrame.empty`: true when either axis has length zero. -/
def dfEmpty (df : ChangesDF) : Bool :=
  df.cols.isEmpty || df.cols.all (fun c => c.2.isEmpty)

/-- Model of `series.dropna()` over a column of (nullable) string values. -/
def nonNullStr (vals : List (Option String)) : List String :=
  vals.filterMap id

/-- Model of `meta.set_index("COLUMN_NAME")` followed by membership/`.loc`
lookup (column names are unique per table in `information_schema`). -/
def metaLookup (meta : List ColumnConstraint) (name : String) : Option ColumnConstraint :=
  meta.find? (fun r => r.column_name = name)

/-- The check `"CHAR" in dtype or "TEXT" in dtype or "STRING" in dtype`. -/
def charKindCheck (dt : String) : Bool :=
  containsSub dt "CHAR" || containsSub dt "TEXT" || containsSub dt "STRING"

/-- The set in `dtype in ("NUMBER", "DECIMAL", "NUMERIC", "FIXED")`. -/
def numericTypeNames : List String := ["NUMBER", "DECIMAL", "NUMERIC", "FIXED"]

/-- Message `"<col>: max length is <max_len_int>, received '<sample>'"`. -/
def charLenMsg (col : String) (m : Int) (w : String) : String :=
  col ++ ": max length is " ++ toString m ++ ", received " ++ pyQuote ++ w ++ pyQuote

/-- Message `"<col>: value '<value>' is not a valid NUMBER(<p>,<s>)"`. -/
def numInvalidMsg (col : String) (p s : Int) (v : String) : String :=
  col ++ ": value " ++ pyQuote ++ v ++ pyQuote ++ " is not a valid NUMBER(" ++
    toString p ++ "," ++ toString s ++ ")"

/-- Message `"<col>: value '<value>' has scale <frac> but max is <s>"`. -/
def numScaleMsg (col : String) (s : Int) (v : String) (frac : Int) : String :=
  col ++ ": value " ++ pyQuote ++ v ++ pyQuote ++ " has scale " ++
    toString frac ++ " but max is " ++ toString s

/-- Message `"<col>: value '<value>' exceeds NUMBER(<p>,<s>)"`. -/
def numPrecMsg (col : String) (p s : Int) (v : String) : String :=
  col ++ ": value " ++ pyQuote ++ v ++ pyQuote ++ " exceeds NUMBER(" ++
    toString p ++ "," ++ toString s ++ ")"

/-- An exception escaping the validator (the `TypeError` from comparing
a string exponent with `0`; see `NumClass.special`). -/
inductive PyError where
  | typeError
deriving DecidableEq, Repr

instance instDecEqExcept {ε α : Type} [DecidableEq ε] [DecidableEq α] :
    DecidableEq (Except ε α)
  | .ok a, .ok b =>
    if h : a = b then .isTrue (by rw [h])
    else .isFalse (fun hh => h (by cases hh; rfl))
  | .error a, .error b =>
    if h : a = b then .isTrue (by rw [h])
    else .isFalse (fun hh => h (by cases hh; rfl))
  | .ok _, .error _ => .isFalse (fun hh => nomatch hh)
  | .error _, .ok _ => .isFalse (fun hh => nomatch hh)

/-- The VARCHAR branch (lines 177-189): drop nulls, take string forms,
filter the over-long values, and report the first one (row order) if
any; no declared `max_length` means no check. -/
def charErrors (col : String) (maxLen : Option Int) (vals : List (Option String)) : List String :=
  match maxLen with
  | none => []
  | some m =>
    let tooLong := (nonNullStr vals).filter (fun v => (v.length : Int) > m)
    match tooLong with
    | [] => []
    | w :: _ => [charLenMsg col m w]

/-- The NUMBER branch loop (lines 199-231): walk the non-null values in
row order, stop at the first value that is not `ok`, and emit the one
corresponding message (`break`); a special value raises `TypeError`. -/
def numericColErrors (col : String) (p s : Int) : List String → Except PyError (List String)
  | [] => .ok []
  | v :: rest =>
    match numClassify p s v with
    | .ok => numericColErrors col p s rest
    | .invalid => .ok [numInvalidMsg col p s v]
    | .scaleViol f => .ok [numScaleMsg col s v f]
    | .precViol => .ok [numPrecMsg col p s v]
    | .special => .error .typeError

/-- One iteration of the `for display_col in changes_df.columns` loop:
look the store-native name up in the metadata, then dispatch on the
declared type. -/
def columnErrors (meta : List ColumnConstraint) (col : String × List (Option String)) :
    Except PyError (List String) :=
  match metaLookup meta (dbColName col.1) with
  | none => .ok []
  | some row =>
    let dtype := pyUpper row.data_type
    if charKindCheck dtype then
      .ok (charErrors col.1 row.character_maximum_length col.2)
    else if numericTypeNames.contains dtype then
      match row.numeric_precision with
      | none => .ok []
      | some p => numericColErrors col.1 p (row.numeric_scale.getD 0) (nonNullStr col.2)
    else .ok []

/-- The whole column loop: violation messages accumulate across
columns; an exception aborts the function (the accumulated list is
lost). -/
def collectColumnErrors (meta : List ColumnConstraint) :
    List (String × List (Option String)) → Except PyError (List String)
  | [] => .ok []
  | c :: rest =>
    match columnErrors meta c with
    | .error e => .error e
    | .ok errs =>
      match collectColumnErrors meta rest with
      | .error e => .error e
      | .ok more => .ok (errs ++ more)

/-- Model of `validate_changes_against_schema` (lines 155-233): early return on
an empty frame or empty metadata, otherwise run the column loop. -/
def validate_changes_against_schema (df : ChangesDF) (meta : List ColumnConstraint) :
    Except PyError (List String) :=
  if dfEmpty df then .ok []
  else if meta.isEmpty then .ok []
  else collectColumnErrors meta df.cols

/-! Section: State-threading rendering of the validator (for the frame claim)

The Python function only ever reads `changes_df`: `dropna`, `astype`,
boolean-mask filtering and `iloc` all return fresh pandas objects and
the loop never assigns into the frame.  The following rendering makes
that explicit by passing the (mutable, in Python) frame through every
loop iteration and returning it alongside the result. -/

/-- Column loop with the frame threaded through each iteration. -/
def collectColumnErrorsRun (meta : List ColumnConstraint) :
    List (String × List (Option String)) → ChangesDF →
    Except PyError (List String) × ChangesDF
  | [], st => (.ok [], st)
  | c :: rest, st =>
    match columnErrors meta c with
    | .error e => (.error e, st)
    | .ok errs =>
      match collectColumnErrorsRun meta rest st with
      | (.error e, st2) => (.error e, st2)
      | (.ok more, st2) => (.ok (errs ++ more), st2)

/-- Variant of `validate_changes_against_schema` returning also the state of the
input frame after the call. -/
def validateChangesRun (df : ChangesDF) (meta : List ColumnConstraint) :
    Except PyError (List String) × ChangesDF :=
  if dfEmpty df then (.ok [], df)
  else if meta.isEmpty then (.ok [], df)
  else collectColumnErrorsRun meta df.cols df

/-! Section: `merge_changes` (lines 241-302 of shop_orders.py)

`PRIMARY_KEY` and `LOCK_COL` live in `constants.py`, which is not part
of the sources here; the functions below take them as parameters with
exactly the shapes the code handles (`PRIMARY_KEY` may be a single
name or a list; `LOCK_COL` may be unset). -/

/-- Shape of `PRIMARY_KEY`: `isinstance(PRIMARY_KEY, (list, tuple))` decides the
normalisation `pk_cols = PRIMARY_KEY ... else [PRIMARY_KEY]`. -/
inductive PkSpec where
  | single (c : String)
  | multi (cs : List String)
deriving DecidableEq, Repr

/-- Normalisation `PRIMARY_KEY if isinstance(PRIMARY_KEY, (list, tuple)) else [PRIMARY_KEY]`. -/
def pkDisplayCols : PkSpec → List String
  | .single c => [c]
  | .multi cs => cs

/-- The row-oriented frame handed to `merge_changes` (the changed rows,
values modelled by their staged form as opaque strings). -/
structure RowsDF where
  cols : List String
  rows : List (List String)
deriving DecidableEq, Repr

/-- pandas `DataFrame.empty` for the row-oriented frame. -/
def rowsDfEmpty (df : RowsDF) : Bool :=
  df.cols.isEmpty || df.rows.isEmpty

/-- Right-hand side of one `set` item in the generated merge statement. -/
inductive SetExpr where
  | srcCol (c : String)
  | currentTimestamp
deriving DecidableEq, Repr

/-- The structure of the single `merge into ... when matched then
update set ...` statement the function renders to SQL text. -/
structure MergeStmt where
  onCols : List String
  setItems : List (String × SetExpr)
deriving DecidableEq, Repr

/-- One call issued to the store session. -/
inductive StoreCall where
  | writePandas (table : String) (df : RowsDF) (overwrite : Bool)
  | execMerge (stmt : MergeStmt)
deriving DecidableEq, Repr

/-- Transient staging table name (module constant). -/
def BASE_MERGE_STAGE_TABLE : String := "STREAMLIT_TABLE_BASE_CHANGES"

/-- Model of `merge_changes`: normalise the index (a no-op here), uppercase the
column names, return `0` with no store call on an empty frame;
otherwise stage the rows with `overwrite=True`, build the `set` list
from the staged columns minus the primary-key and lock columns, add
`prd.<lock> = current_timestamp()` to the same statement when a lock
column is configured, execute the single merge, and return
`len(changes_df)`. -/
def merge_changes (pk : PkSpec) (lockCol : Option String) (changes : RowsDF) :
    Int × List StoreCall :=
  let renamed : RowsDF := ⟨changes.cols.map dbColName, changes.rows⟩
  if rowsDfEmpty renamed then (0, [])
  else
    let pkColsDb := (pkDisplayCols pk).map dbColName
    let lockDb := lockCol.map dbColName
    let excludeCols := pkColsDb ++ (match lockDb with | some l => [l] | none => [])
    let updateCols := renamed.cols.filter (fun c => !(excludeCols.contains c))
    let setItems := updateCols.map (fun c => (c, SetExpr.srcCol c)) ++
      (match lockDb with | some l => [(l, SetExpr.currentTimestamp)] | none => [])
    let stmt : MergeStmt := ⟨pkColsDb, setItems⟩
    ((renamed.rows.length : Int),
     [.writePandas BASE_MERGE_STAGE_TABLE renamed true, .execMerge stmt])

/-- A store-side row as a column-name/value association. -/
def rowLookup (r : List (String × String)) (c : String) : Option String :=
  (r.find? (fun p => p.1 = c)).map (fun p => p.2)

/-- The staged rows as association rows (column names zipped with values). -/
def stagedRows (df : RowsDF) : List (List (String × String)) :=
  df.rows.map (fun r => df.cols.zip r)

/-- Join condition of the generated merge: equality on every `on` column. -/
def rowsMatchOn (onCols : List String) (prd src : List (String × String)) : Bool :=
  onCols.all (fun c => rowLookup prd c == rowLookup src c)

/-- Modelled from the spec: the external tabular store's execution of
the key-matched merge statement (`execute(sql) -> affectedCount`,
spec section 6); the store is not part of this repository.  The count of
affected rows is the number of target (`prd`) rows for which some
staged (`src`) row matches on every join column. -/
def mergeAffectedCount (prd src : List (List (String × String))) (onCols : List String) : Int :=
  ((prd.filter (fun pr => src.any (fun sr => rowsMatchOn onCols pr sr))).length : Int)

/-! Section: `auto_convert_dtypes` and the `column_tags` registry
(lines 73-114 of shop_orders.py)

A loaded snapshot is a list of named columns; `df.convert_dtypes()`
(nullable-dtype normalisation) is invisible at this level of the model
and is the identity.  `pd.to_datetime(column, format=..., errors="coerce")`
parses each value with the strict format and yields `NaT` (`none`) for
every value that does not parse — including every null value, which is
the pivotal behaviour for the temporal-acceptance claims. -/

/-- A wall-clock timestamp as parsed by the strict formats
(`tzMinutes = none` for the timezone-naive date-only format). -/
structure PyDateTime where
  year : Nat
  month : Nat
  day : Nat
  hour : Nat
  minute : Nat
  second : Nat
  tzMinutes : Option Int
deriving DecidableEq, Repr

/-- A calendar date (the result of `.dt.date` / `.date()`). -/
structure PyDate where
  year : Nat
  month : Nat
  day : Nat
deriving DecidableEq, Repr

/-- strptime-style 1-or-2-digit numeric field (greedy). -/
def take2Digits : List Char → Option (Nat × List Char)
  | a :: b :: r =>
    if a.isDigit && b.isDigit then some ((a.toNat - 48) * 10 + (b.toNat - 48), r)
    else if a.isDigit then some (a.toNat - 48, b :: r)
    else none
  | [a] => if a.isDigit then some (a.toNat - 48, []) else none
  | [] => none

/-- Field `%Y`: exactly four digits. -/
def take4Digits : List Char → Option (Nat × List Char)
  | a :: b :: c :: d :: r =>
    if a.isDigit && b.isDigit && c.isDigit && d.isDigit then
      some ((a.toNat - 48) * 1000 + (b.toNat - 48) * 100 + (c.toNat - 48) * 10 +
        (d.toNat - 48), r)
    else none
  | _ => none

/-- Consume one expected literal character. -/
def expectChar (c : Char) : List Char → Option (List Char)
  | x :: r => if x = c then some r else none
  | [] => none

/-- Gregorian leap year. -/
def isLeapYear (y : Nat) : Bool :=
  y % 4 = 0 && (y % 100 ≠ 0 || y % 400 = 0)

/-- Length of a month, used for the calendar validity check that
`strptime`/`to_datetime` perform (e.g. April 31 does not parse). -/
def daysInMonth (y m : Nat) : Nat :=
  if m = 2 then (if isLeapYear y then 29 else 28)
  else if m = 4 || m = 6 || m = 9 || m = 11 then 30
  else 31

/-- Field `%z`: `Z`, or a sign, two hour digits, an optional colon and two
minute digits (minutes 00-59); returns the offset in minutes. -/
def parseTzOffset (cs : List Char) : Option (Int × List Char) :=
  match cs with
  | 'Z' :: r => some (0, r)
  | c :: h1 :: h2 :: r =>
    if (c = '+' || c = '-') && h1.isDigit && h2.isDigit then
      let hh := (h1.toNat - 48) * 10 + (h2.toNat - 48)
      let r2 := match r with
        | ':' :: t => t
        | t => t
      match r2 with
      | m1 :: m2 :: r3 =>
        if m1.isDigit && m2.isDigit then
          let mm := (m1.toNat - 48) * 10 + (m2.toNat - 48)
          if mm ≤ 59 then
            some ((if c = '-' then (-1 : Int) else 1) * ((hh : Int) * 60 + (mm : Int)), r3)
          else none
        else none
      | _ => none
    else none
  | _ => none

/-- Fields `%Y-%m-%d` with calendar validity. -/
def parseDateParts (cs : List Char) : Option (Nat × Nat × Nat × List Char) := do
  let (y, r1) ← take4Digits cs
  let r2 ← expectChar '-' r1
  let (m, r3) ← take2Digits r2
  if 1 ≤ m ∧ m ≤ 12 then
    let r4 ← expectChar '-' r3
    let (d, r5) ← take2Digits r4
    if 1 ≤ d ∧ d ≤ daysInMonth y m then some (y, m, d, r5) else none
  else none

/-- Strict parse under `"%Y-%m-%d %H:%M:%S%z"`. -/
def parseTsZ (s : String) : Option PyDateTime := do
  let (y, m, d, r) ← parseDateParts s.data
  let r ← expectChar ' ' r
  let (hh, r) ← take2Digits r
  if hh ≤ 23 then
    let r ← expectChar ':' r
    let (mi, r) ← take2Digits r
    if mi ≤ 59 then
      let r ← expectChar ':' r
      let (ss, r) ← take2Digits r
      if ss ≤ 59 then
        let (tz, r) ← parseTzOffset r
        if r.isEmpty then some ⟨y, m, d, hh, mi, ss, some tz⟩ else none
      else none
    else none
  else none

/-- Strict parse under `"%Y-%m-%d"` (midnight, timezone-naive). -/
def parseDateOnly (s : String) : Option PyDateTime := do
  let (y, m, d, r) ← parseDateParts s.data
  if r.isEmpty then some ⟨y, m, d, 0, 0, 0, none⟩ else none

/-- Days since 1970-01-01 of a civil date (proleptic Gregorian). -/
def daysFromCivil (y m d : Int) : Int :=
  let y2 := if m ≤ 2 then y - 1 else y
  let era := (if y2 ≥ 0 then y2 else y2 - 399) / 400
  let yoe := y2 - era * 400
  let mp := (m + 9) % 12
  let doy := (153 * mp + 2) / 5 + d - 1
  let doe := yoe * 365 + yoe / 4 - yoe / 100 + doy
  era * 146097 + doe - 719468

/-- The instant of a timestamp in seconds (UTC; naive values count as
offset 0), used to order timestamps for the min/max bounds. -/
def dtEpochSeconds (t : PyDateTime) : Int :=
  daysFromCivil (t.year : Int) (t.month : Int) (t.day : Int) * 86400 +
    (t.hour : Int) * 3600 + (t.minute : Int) * 60 + (t.second : Int) -
    (t.tzMinutes.getD 0) * 60

/-- Conversion `.date()` of a timestamp: its wall-clock date. -/
def dtWallDate (t : PyDateTime) : PyDate := ⟨t.year, t.month, t.day⟩

/-- Model of `parsed.min()` over the parsed instants. -/
def instMin : List PyDateTime → Option PyDateTime
  | [] => none
  | t :: rest =>
    match instMin rest with
    | none => some t
    | some u => if dtEpochSeconds t ≤ dtEpochSeconds u then some t else some u

/-- Model of `parsed.max()` over the parsed instants. -/
def instMax : List PyDateTime → Option PyDateTime
  | [] => none
  | t :: rest =>
    match instMax rest with
    | none => some t
    | some u => if dtEpochSeconds t ≥ dtEpochSeconds u then some t else some u

/-- A loaded column: its pandas dtype together with its values. -/
inductive ColData where
  | numeric (vals : List (Option Int))
  | strings (vals : List (Option String))
  | timestamps (vals : List (Option PyDateTime))
  | dates (vals : List (Option PyDate))
deriving DecidableEq, Repr

/-- A loaded snapshot: named columns in order. -/
abbrev LoadFrame := List (String × ColData)

/-- Model of `pd.api.types.is_numeric_dtype` on a column. -/
def is_numeric : ColData → Bool
  | .numeric _ => true
  | _ => false

/-- Number of rows of a column. -/
def numVals : ColData → Nat
  | .numeric vs => vs.length
  | .strings vs => vs.length
  | .timestamps vs => vs.length
  | .dates vs => vs.length

/-- Semantic type recorded in a column tag. -/
inductive TagType where
  | timestamp
  | date
deriving DecidableEq, Repr

/-- One `column_tags` entry:
`{"type": ..., "min_date": ..., "max_date": ...}`
(`none` bounds for a zero-row accepted column, where `min()` is `NaT`). -/
structure ColTag where
  type : TagType
  min_date : Option PyDate
  max_date : Option PyDate
deriving DecidableEq, Repr

/-- The process-wide `column_tags` dict, as an insertion-ordered map. -/
abbrev TagMap := List (String × ColTag)

/-- Python dict assignment `column_tags[col] = tag`: replace in place
if the key exists, else append. -/
def tagInsert (m : TagMap) (k : String) (v : ColTag) : TagMap :=
  if m.any (fun p => p.1 = k) then m.map (fun p => if p.1 = k then (k, v) else p)
  else m ++ [(k, v)]

/-- Python dict lookup `column_tags[col]` / `col in column_tags`. -/
def tagLookup (m : TagMap) (k : String) : Option ColTag :=
  (m.find? (fun p => p.1 = k)).map (fun p => p.2)

/-- Model of `pd.to_datetime(df[col], format=..., errors="coerce")` per
dtype: strings are parsed value-by-value (nulls coerce to `NaT`,
i.e. `none`); already-datetime columns pass through (unreachable for a
fresh load, which only yields numeric and string columns). -/
def colParsedWith (f : String → Option PyDateTime) : ColData → List (Option PyDateTime)
  | .numeric _ => []
  | .strings vals => vals.map (fun o => o.bind f)
  | .timestamps vals => vals
  | .dates vals => vals.map (fun o => o.map (fun d => ⟨d.year, d.month, d.day, 0, 0, 0, none⟩))

/-- The test `parsed.dt.time == midnight` for one value. -/
def isMidnight (t : PyDateTime) : Bool :=
  t.hour = 0 && t.minute = 0 && t.second = 0

/-- Lines 98-112 for an accepted column: store the parsed values, tag
`timestamp` with date bounds, then downgrade to `date` when every
parsed instant is exactly midnight. -/
def convertAccepted (parsed : List (Option PyDateTime)) : ColData × ColTag :=
  let dts := parsed.filterMap id
  let minD := (instMin dts).map dtWallDate
  let maxD := (instMax dts).map dtWallDate
  if dts.all isMidnight then
    (.dates (parsed.map (fun o => o.map dtWallDate)), ⟨.date, minD, maxD⟩)
  else
    (.timestamps parsed, ⟨.timestamp, minD, maxD⟩)

/-- One iteration of the `for col in df.columns` loop: numeric columns
are exempt; otherwise parse everything with the timestamp format, fall
back to the date-only format if some value failed, and accept the
column (converting it and writing its tag) only when the latest parse
succeeded everywhere — any null or unparseable value rejects. -/
def convertCol (name : String) (cd : ColData) (tags : TagMap) : ColData × TagMap :=
  if is_numeric cd then (cd, tags)
  else
    let p1 := colParsedWith parseTsZ cd
    let parsed := if p1.all Option.isSome then p1 else colParsedWith parseDateOnly cd
    if parsed.all Option.isSome then
      let ct := convertAccepted parsed
      (ct.1, tagInsert tags name ct.2)
    else (cd, tags)

/-- Model of `auto_convert_dtypes` (lines 80-114): `convert_dtypes()` is the
identity at this level; then the column loop, threading the shared
`column_tags` registry, which is only ever written through
`tagInsert` — never cleared. -/
def auto_convert_dtypes : LoadFrame → TagMap → LoadFrame × TagMap
  | [], tags => ([], tags)
  | (name, cd) :: rest, tags =>
    let ct := convertCol name cd tags
    let rt := auto_convert_dtypes rest ct.2
    ((name, ct.1) :: rt.1, rt.2)

/-! Section: The Save Changes handler (src/app.py lines 167-194)

`get_changed_rows` and `build_change_log` live in
`controllers/edits.py`, which is not among the sources; the handler is
therefore modelled over an arbitrary changed-cells frame (the result
of `get_changed_rows`) and the change-log build is an opaque effect.
`st.stop()` and `st.rerun()` raise control-flow exceptions that end
the pipeline at that point; in either case no later stage of the save
pipeline runs.  A store failure inside the `try` block is caught by
`except Exception`, which logs and shows a generic error. -/

/-- Observable effects of one run of the Save Changes handler. -/
inductive SaveEffect where
  | infoNoChanges
  | validationErrorShown (msgs : List String)
  | changeLogBuilt
  | storeMerged
  | storePendingLogged
  | dataRefreshed
  | successShown
  | stopRaised
  | rerunRaised
  | saveErrorShown
deriving DecidableEq, Repr

/-- The session state touched by the handler: the immutable original
snapshot (of arbitrary frame type) and the edit-mode flag. -/
structure SessionSt (α : Type) where
  original_df : α
  edit_mode : Bool
deriving DecidableEq, Repr

/-- The body of `if st.button("Save Changes")`: diff (given), empty
check, validation gate (`st.stop()` on any violation), then
`build_change_log` → `merge_changes` → `log_pending_changes` →
`refresh_data` → leave edit mode → success → `st.rerun()`.
`mergeFails`/`logFails` model a store-side exception in the respective
call. -/
def saveChangesHandler {α : Type} (st : SessionSt α) (changes : ChangesDF)
    (meta : List ColumnConstraint) (mergeFails logFails : Bool) :
    SessionSt α × List SaveEffect :=
  if dfEmpty changes then (st, [.infoNoChanges])
  else
    match validate_changes_against_schema changes meta with
    | .error _ => (st, [.saveErrorShown])
    | .ok errs =>
      if errs.isEmpty then
        if mergeFails then (st, [.changeLogBuilt, .saveErrorShown])
        else if logFails then (st, [.changeLogBuilt, .storeMerged, .saveErrorShown])
        else ({ st with edit_mode := false },
              [.changeLogBuilt, .storeMerged, .storePendingLogged, .dataRefreshed,
               .successShown, .rerunRaised])
      else (st, [.validationErrorShown errs, .stopRaised])

/-! Section: Helper lemmas -/

theorem collectColumnErrorsRun_pure (meta : List ColumnConstraint)
    (cs : List (String × List (Option String))) (st : ChangesDF) :
    collectColumnErrorsRun meta cs st = (collectColumnErrors meta cs, st) := by
  induction cs with
  | nil => rfl
  | cons c rest ih =>
    unfold collectColumnErrorsRun collectColumnErrors
    rw [ih]
    cases columnErrors meta c <;> cases collectColumnErrors meta rest <;> simp

theorem convertAccepted_numVals (parsed : List (Option PyDateTime)) :
    numVals (convertAccepted parsed).1 = parsed.length := by
  simp only [convertAccepted]
  split <;> simp [numVals]

theorem colParsedWith_length (f : String → Option PyDateTime) (cd : ColData)
    (h : is_numeric cd = false) :
    (colParsedWith f cd).length = numVals cd := by
  cases cd <;> simp_all [colParsedWith, numVals, is_numeric]

theorem convertCol_numVals (name : String) (cd : ColData) (tags : TagMap) :
    numVals (convertCol name cd tags).1 = numVals cd := by
  by_cases hn : is_numeric cd = true
  · simp [convertCol, hn]
  · have hn' : is_numeric cd = false := by simpa using hn
    have hlen : ∀ f, (colParsedWith f cd).length = numVals cd :=
      fun f => colParsedWith_length f cd hn'
    simp only [convertCol, hn', Bool.false_eq_true, if_false]
    by_cases h1 : (colParsedWith parseTsZ cd).all Option.isSome = true
    · simp [h1, convertAccepted_numVals, hlen]
    · simp only [h1, if_false]
      by_cases h2 : (colParsedWith parseDateOnly cd).all Option.isSome = true
      · simp [h1, h2, convertAccepted_numVals, hlen]
      · simp [h1, h2]

/-! Section: Claim C8 -/

/-- C8: `validate_changes_against_schema` never mutates the
changed-cells table it is given — running the validator step by step
with the frame threaded through every loop iteration returns the frame
exactly as it was passed in — and its returned violation list is the
pure function `validate_changes_against_schema` of the changed cells
and the fetched column constraints alone. -/
theorem validator_pure_no_mutation_c8 (df : ChangesDF) (meta : List ColumnConstraint) :
    validateChangesRun df meta = (validate_changes_against_schema df meta, df) := by
  unfold validateChangesRun validate_changes_against_schema
  split
  · rfl
  · split
    · rfl
    · exact collectColumnErrorsRun_pure meta df.cols df

/-! Section: Claim C10 -/

/-- C10: `auto_convert_dtypes` preserves snapshot shape — the returned
frame has the same column names in the same order as the input, and
every column keeps its number of rows (conversions are pointwise
`List.map`s of the column values, so rows are never added, removed or
reordered). -/
theorem auto_convert_shape_c10 (df : LoadFrame) (tags : TagMap) :
    (auto_convert_dtypes df tags).1.map Prod.fst = df.map Prod.fst ∧
    (auto_convert_dtypes df tags).1.map (fun c => numVals c.2) =
      df.map (fun c => numVals c.2) := by
  induction df generalizing tags with
  | nil => exact ⟨rfl, rfl⟩
  | cons c rest ih =>
    obtain ⟨name, cd⟩ := c
    have h := ih (convertCol name cd tags).2
    refine ⟨?_, ?_⟩
    · simpa [auto_convert_dtypes] using h.1
    · simpa [auto_convert_dtypes, convertCol_numVals] using h.2

/-! Section: Claim C2 -/

/-- C2: whenever the validator returns a non-empty list of violation
messages during a save, the Save Changes handler aborts the save
entirely — the change log is not built, `merge_changes` and
`log_pending_changes` are not invoked (so nothing is written to the
store), and the in-memory original snapshot is returned unchanged. -/
theorem save_aborts_on_validation_failure_c2 {α : Type} (st : SessionSt α)
    (changes : ChangesDF) (meta : List ColumnConstraint) (mergeFails logFails : Bool)
    (errs : List String)
    (hv : validate_changes_against_schema changes meta = .ok errs)
    (hne : errs ≠ []) :
    saveChangesHandler st changes meta mergeFails logFails =
      (st, [.validationErrorShown errs, .stopRaised]) ∧
    (saveChangesHandler st changes meta mergeFails logFails).1.original_df = st.original_df ∧
    SaveEffect.changeLogBuilt ∉ (saveChangesHandler st changes meta mergeFails logFails).2 ∧
    SaveEffect.storeMerged ∉ (saveChangesHandler st changes meta mergeFails logFails).2 ∧
    SaveEffect.storePendingLogged ∉ (saveChangesHandler st changes meta mergeFails logFails).2 := by
  have hem : dfEmpty changes = false := by
    cases he : dfEmpty changes
    · rfl
    · rw [validate_changes_against_schema, if_pos he] at hv
      cases hv
      exact absurd rfl hne
  have hie : errs.isEmpty = false := by
    cases errs with
    | nil => exact absurd rfl hne
    | cons a t => rfl
  have hmain : saveChangesHandler st changes meta mergeFails logFails =
      (st, [.validationErrorShown errs, .stopRaised]) := by
    unfold saveChangesHandler
    rw [if_neg (by simp [hem]), hv]
    simp [hie]
  refine ⟨hmain, ?_, ?_, ?_, ?_⟩ <;> rw [hmain] <;> simp

/-- Witness for C2 at a concrete rejected save: a one-column change
with value `"AB"` against a `VARCHAR(1)` constraint. -/
theorem save_aborts_on_validation_failure_c2_witness :
    saveChangesHandler (⟨0, true⟩ : SessionSt Nat) ⟨[("Status", [some "AB"])]⟩
        [⟨"STATUS", "VARCHAR", some 1, none, none⟩] false false =
      ((⟨0, true⟩ : SessionSt Nat),
       [.validationErrorShown [charLenMsg "Status" 1 "AB"], .stopRaised]) :=
  (save_aborts_on_validation_failure_c2 (⟨0, true⟩ : SessionSt Nat)
    ⟨[("Status", [some "AB"])]⟩ [⟨"STATUS", "VARCHAR", some 1, none, none⟩]
    false false [charLenMsg "Status" 1 "AB"] (by decide) (by decide)).1

/-! Section: Claim C3 -/

theorem contains_of_mem {a : String} {l : List String} (h : a ∈ l) :
    l.contains a = true := by
  induction l with
  | nil => cases h
  | cons b t ih =>
    rcases List.mem_cons.mp h with h1 | h2
    · subst h1; simp [List.contains_cons]
    · rw [List.contains_cons, ih h2, Bool.or_true]

/-- Is a store call the execution of a merge statement? -/
def isExecMergeCall : StoreCall → Bool
  | .execMerge _ => true
  | _ => false

/-- Is a store call a staging write (`write_pandas`)? -/
def isStageWriteCall : StoreCall → Bool
  | .writePandas _ _ _ => true
  | _ => false

/-- C3: for every non-empty change set, `merge_changes` issues exactly
one staging write and exactly one merge statement, and in that
statement no primary-key column and no configured lock column ever
appears as a user-settable (`src`-sourced) `set` item even when those
columns appear in the staged data, while the lock column, when
configured, is set to `current_timestamp()` inside that same single
statement. -/
theorem merge_excludes_keys_stamps_lock_c3
    (pk : PkSpec) (lockCol : Option String) (changes : RowsDF)
    (hne : rowsDfEmpty ⟨changes.cols.map dbColName, changes.rows⟩ = false) :
    ((merge_changes pk lockCol changes).2.countP isExecMergeCall = 1) ∧
    ((merge_changes pk lockCol changes).2.countP isStageWriteCall = 1) ∧
    (∀ stmt, StoreCall.execMerge stmt ∈ (merge_changes pk lockCol changes).2 →
      (∀ c c2, c ∈ (pkDisplayCols pk).map dbColName →
        (c, SetExpr.srcCol c2) ∉ stmt.setItems) ∧
      (∀ l, lockCol = some l →
        (∀ c2, (dbColName l, SetExpr.srcCol c2) ∉ stmt.setItems) ∧
        (dbColName l, SetExpr.currentTimestamp) ∈ stmt.setItems)) := by
  simp only [merge_changes, hne, Bool.false_eq_true, if_false]
  refine ⟨?_, ?_, ?_⟩
  · simp [List.countP_cons, isExecMergeCall]
  · simp [List.countP_cons, isStageWriteCall]
  · intro stmt hmem
    simp only [List.mem_cons] at hmem
    rcases hmem with h | h | h
    · exact absurd h (by simp)
    · cases h
      constructor
      · intro c c2 hc hin
        rw [List.mem_append] at hin
        rcases hin with hin | hin
        · obtain ⟨a, ha, heq⟩ := List.mem_map.mp hin
          obtain ⟨x, hx, hxc⟩ := List.mem_map.mp hc
          rw [List.mem_filter] at ha
          have hcon := ha.2
          have hac : a = c := congrArg Prod.fst heq
          subst hac
          simp only [Bool.not_eq_true'] at hcon
          have htrue := contains_of_mem (List.mem_append_left
            (match Option.map dbColName lockCol with
             | some l => [l]
             | none => []) hc)
          rw [hcon] at htrue
          cases htrue
        · cases hl : lockCol.map dbColName with
          | none => rw [hl] at hin; cases hin
          | some l2 =>
            rw [hl] at hin
            rw [List.mem_singleton] at hin
            have h2 : SetExpr.srcCol c2 = SetExpr.currentTimestamp :=
              congrArg Prod.snd hin
            cases h2
      · intro l hl
        subst hl
        constructor
        · intro c2 hin
          rw [List.mem_append] at hin
          rcases hin with hin | hin
          · obtain ⟨a, ha, heq⟩ := List.mem_map.mp hin
            rw [List.mem_filter] at ha
            have hcon := ha.2
            have hac : a = dbColName l := congrArg Prod.fst heq
            subst hac
            simp only [Bool.not_eq_true'] at hcon
            have htrue := contains_of_mem (List.mem_append_right
              ((pkDisplayCols pk).map dbColName)
              (show dbColName l ∈
                  (match Option.map dbColName (some l) with
                   | some l2 => [l2]
                   | none => []) by simp [Option.map]))
            rw [hcon] at htrue
            cases htrue
          · simp only [Option.map] at hin
            rw [List.mem_singleton] at hin
            have h2 : SetExpr.srcCol c2 = SetExpr.currentTimestamp :=
              congrArg Prod.snd hin
            cases h2
        · exact List.mem_append_right _ (by simp [Option.map])
    · cases h

/-- Witness for C3 at a concrete change set staging the primary-key
column `Order ID`, a value column `Qty` and the lock column
`Last Modified`: the executed statement's set list omits
`ORDER_ID` as a source-valued item and stamps `LAST_MODIFIED` with
`current_timestamp()`. -/
theorem merge_excludes_keys_stamps_lock_c3_witness :
    ("ORDER_ID", SetExpr.srcCol "ORDER_ID") ∉
      (⟨["ORDER_ID"], [("QTY", SetExpr.srcCol "QTY"),
        ("LAST_MODIFIED", SetExpr.currentTimestamp)]⟩ : MergeStmt).setItems ∧
    ("LAST_MODIFIED", SetExpr.currentTimestamp) ∈
      (⟨["ORDER_ID"], [("QTY", SetExpr.srcCol "QTY"),
        ("LAST_MODIFIED", SetExpr.currentTimestamp)]⟩ : MergeStmt).setItems := by
  have h := merge_excludes_keys_stamps_lock_c3 (.single "Order ID") (some "Last Modified")
    ⟨["Order ID", "Qty", "Last Modified"], [["7", "3", "x"]]⟩ (by decide)
  have hm := h.2.2 ⟨["ORDER_ID"], [("QTY", SetExpr.srcCol "QTY"),
    ("LAST_MODIFIED", SetExpr.currentTimestamp)]⟩ (by decide)
  exact ⟨hm.1 "ORDER_ID" "ORDER_ID" (by decide), (hm.2 "Last Modified" rfl).2⟩

/-! Section: Claim C4 -/

/-- C4 counterexample: `merge_changes` does not return the count of
rows affected by the key-matched update.  With an empty target table
the update it applies matches (affects) `0` rows — per the
spec-modelled store semantics `mergeAffectedCount` — yet the function
returns `1` for a one-row change set: it returns `len(changes_df)`
and discards the result of `session.sql(...).collect()`. -/
theorem merge_return_not_affected_c4_counterexample :
    (merge_changes (.single "Order ID") none ⟨["Order ID", "Qty"], [["7", "3"]]⟩).1 = 1 ∧
    (merge_changes (.single "Order ID") none ⟨["Order ID", "Qty"], [["7", "3"]]⟩).2 =
      [.writePandas BASE_MERGE_STAGE_TABLE ⟨["ORDER_ID", "QTY"], [["7", "3"]]⟩ true,
       .execMerge ⟨["ORDER_ID"], [("QTY", SetExpr.srcCol "QTY")]⟩] ∧
    mergeAffectedCount [] (stagedRows ⟨["ORDER_ID", "QTY"], [["7", "3"]]⟩) ["ORDER_ID"] = 0 ∧
    (1 : Int) ≠ 0 := by decide

/-- C4 (amended): `merge_changes` returns the number of rows in the
change set it staged — which equals the store-affected count only when
every staged key matches — and on an empty change set it returns `0`
and performs no store call at all. -/
theorem merge_return_staged_count_c4_amended
    (pk : PkSpec) (lockCol : Option String) (changes : RowsDF) :
    (rowsDfEmpty ⟨changes.cols.map dbColName, changes.rows⟩ = true →
      merge_changes pk lockCol changes = (0, [])) ∧
    (rowsDfEmpty ⟨changes.cols.map dbColName, changes.rows⟩ = false →
      (merge_changes pk lockCol changes).1 = (changes.rows.length : Int)) := by
  constructor
  · intro h
    simp [merge_changes, h]
  · intro h
    simp [merge_changes, h]

/-- Witness for the amended C4 on a concrete empty and a concrete
one-row change set. -/
theorem merge_return_staged_count_c4_amended_witness :
    merge_changes (.single "Order ID") none
      ⟨["Order ID", "Qty"], ([] : List (List String))⟩ = (0, []) ∧
    (merge_changes (.single "Order ID") none ⟨["Order ID", "Qty"], [["7", "3"]]⟩).1 = 1 := by
  constructor
  · exact (merge_return_staged_count_c4_amended (.single "Order ID") none
      ⟨["Order ID", "Qty"], []⟩).1 (by decide)
  · have h := (merge_return_staged_count_c4_amended (.single "Order ID") none
      ⟨["Order ID", "Qty"], [["7", "3"]]⟩).2 (by decide)
    simpa using h

/-! Section: Claim C5 -/

/-- C5 counterexample: a column whose non-null values all parse under
the strict date-only format but which also contains a null entry is
NOT accepted as temporal: `pd.to_datetime(..., errors="coerce")` turns
the null into `NaT`, so `parsed.notna().all()` fails and the column is
left as plain string with no tag recorded — contradicting the claim
that such a column is accepted "regardless of any null entries". -/
theorem temporal_null_rejection_c5_counterexample :
    nonNullStr [some "2020-01-02", none] = ["2020-01-02"] ∧
    ["2020-01-02"].all (fun s => (parseDateOnly s).isSome) = true ∧
    auto_convert_dtypes [("A", ColData.strings [some "2020-01-02", none])] [] =
      ([("A", ColData.strings [some "2020-01-02", none])], []) := by decide

/-- C5 (amended): a string column of a freshly loaded snapshot is
accepted as temporal (converted, with a tag recorded) if and only if
ALL of its values — nulls included, and a null never parses — parse
under the strict timestamp format or, failing that, all parse under
the strict date-only format; a single unparseable value or null entry
leaves the whole column as plain string with no tag recorded. -/
theorem temporal_acceptance_c5_amended
    (name : String) (vals : List (Option String)) (tags : TagMap) :
    (vals.all (fun o => (o.bind parseTsZ).isSome) = true →
      convertCol name (.strings vals) tags =
        ((convertAccepted (vals.map (fun o => o.bind parseTsZ))).1,
         tagInsert tags name (convertAccepted (vals.map (fun o => o.bind parseTsZ))).2)) ∧
    (vals.all (fun o => (o.bind parseTsZ).isSome) = false →
      vals.all (fun o => (o.bind parseDateOnly).isSome) = true →
      convertCol name (.strings vals) tags =
        ((convertAccepted (vals.map (fun o => o.bind parseDateOnly))).1,
         tagInsert tags name (convertAccepted (vals.map (fun o => o.bind parseDateOnly))).2)) ∧
    (vals.all (fun o => (o.bind parseTsZ).isSome) = false →
      vals.all (fun o => (o.bind parseDateOnly).isSome) = false →
      convertCol name (.strings vals) tags = (.strings vals, tags)) ∧
    (none ∈ vals → convertCol name (.strings vals) tags = (.strings vals, tags)) ∧
    (∀ (df : LoadFrame) (t2 : TagMap),
      auto_convert_dtypes ((name, ColData.strings vals) :: df) t2 =
        ((name, (convertCol name (.strings vals) t2).1) ::
          (auto_convert_dtypes df (convertCol name (.strings vals) t2).2).1,
         (auto_convert_dtypes df (convertCol name (.strings vals) t2).2).2)) := by
  have hparse1 : colParsedWith parseTsZ (ColData.strings vals) =
      vals.map (fun o => o.bind parseTsZ) := rfl
  have hparse2 : colParsedWith parseDateOnly (ColData.strings vals) =
      vals.map (fun o => o.bind parseDateOnly) := rfl
  have hall : ∀ (f : String → Option PyDateTime) (l : List (Option String)),
      (l.map (fun o => o.bind f)).all Option.isSome =
        l.all (fun o => (o.bind f).isSome) := by
    intro f l
    induction l with
    | nil => rfl
    | cons a t ih => simp only [List.map_cons, List.all_cons, ih]
  refine ⟨?_, ?_, ?_, ?_, ?_⟩
  · intro h1
    have hc1 : (vals.map (fun o => o.bind parseTsZ)).all Option.isSome = true :=
      (hall parseTsZ vals).trans h1
    simp only [convertCol, is_numeric, Bool.false_eq_true, if_false, hparse1, hparse2,
      hc1, eq_self_iff_true, if_true]
  · intro h1 h2
    have hc1 : (vals.map (fun o => o.bind parseTsZ)).all Option.isSome = false :=
      (hall parseTsZ vals).trans h1
    have hc2 : (vals.map (fun o => o.bind parseDateOnly)).all Option.isSome = true :=
      (hall parseDateOnly vals).trans h2
    simp only [convertCol, is_numeric, Bool.false_eq_true, if_false, hparse1, hparse2,
      hc1, hc2, eq_self_iff_true, if_true]
  · intro h1 h2
    have hc1 : (vals.map (fun o => o.bind parseTsZ)).all Option.isSome = false :=
      (hall parseTsZ vals).trans h1
    have hc2 : (vals.map (fun o => o.bind parseDateOnly)).all Option.isSome = false :=
      (hall parseDateOnly vals).trans h2
    simp only [convertCol, is_numeric, Bool.false_eq_true, if_false, hparse1, hparse2,
      hc1, hc2]
  · intro hn
    have hf : ∀ (f : String → Option PyDateTime),
        vals.all (fun o => (o.bind f).isSome) = false := by
      intro f
      cases hall2 : vals.all (fun o => (o.bind f).isSome)
      · rfl
      · have := List.all_eq_true.mp hall2 none hn
        simp [Option.bind] at this
    have hc1 : (vals.map (fun o => o.bind parseTsZ)).all Option.isSome = false :=
      (hall parseTsZ vals).trans (hf parseTsZ)
    have hc2 : (vals.map (fun o => o.bind parseDateOnly)).all Option.isSome = false :=
      (hall parseDateOnly vals).trans (hf parseDateOnly)
    simp only [convertCol, is_numeric, Bool.false_eq_true, if_false, hparse1, hparse2,
      hc1, hc2]
  · intro df t2
    rfl

/-- Witness for the amended C5: the concrete null-contaminated column
is left as a plain string column with no tag. -/
theorem temporal_acceptance_c5_amended_witness :
    convertCol "A" (.strings [some "2020-01-02", none]) [] =
      (.strings [some "2020-01-02", none], []) :=
  (temporal_acceptance_c5_amended "A" [some "2020-01-02", none] []).2.2.2.1 (by decide)

/-! Section: Claim C6 -/

/-- C6 counterexample: `column_tags` is NOT rebuilt fully on a load.
Starting from a registry holding a tag for column `A` recorded by an
earlier load, converting a new snapshot that does not contain `A` at
all leaves the stale `A` entry in the registry (the dict is only ever
written by `column_tags[col] = ...`, never cleared). -/
theorem column_tags_stale_c6_counterexample :
    (auto_convert_dtypes [("B", ColData.strings [some "2021-03-04"])]
        [("A", ⟨.date, some ⟨2019, 1, 1⟩, some ⟨2019, 1, 1⟩⟩)]).2 =
      [("A", ⟨.date, some ⟨2019, 1, 1⟩, some ⟨2019, 1, 1⟩⟩),
       ("B", ⟨.date, some ⟨2021, 3, 4⟩, some ⟨2021, 3, 4⟩⟩)] ∧
    tagLookup (auto_convert_dtypes [("B", ColData.strings [some "2021-03-04"])]
        [("A", ⟨.date, some ⟨2019, 1, 1⟩, some ⟨2019, 1, 1⟩⟩)]).2 "A" =
      some ⟨.date, some ⟨2019, 1, 1⟩, some ⟨2019, 1, 1⟩⟩ ∧
    "A" ∉ ([("B", ColData.strings [some "2021-03-04"])] : LoadFrame).map Prod.fst := by
  decide

theorem find?_replace_ne (k name : String) (v : ColTag) (h : k ≠ name) :
    ∀ m : TagMap,
      (m.map (fun p => if p.1 = k then (k, v) else p)).find?
          (fun p => decide (p.1 = name)) =
        m.find? (fun p => decide (p.1 = name))
  | [] => rfl
  | p :: rest => by
    simp only [List.map_cons]
    by_cases hp : p.1 = k
    · rw [if_pos hp]
      rw [List.find?_cons_of_neg _ (by simp [h]),
        List.find?_cons_of_neg _ (by simp [hp, h])]
      exact find?_replace_ne k name v h rest
    · rw [if_neg hp]
      by_cases hn : p.1 = name
      · rw [List.find?_cons_of_pos _ (by simp [hn]),
          List.find?_cons_of_pos _ (by simp [hn])]
      · rw [List.find?_cons_of_neg _ (by simp [hn]),
          List.find?_cons_of_neg _ (by simp [hn])]
        exact find?_replace_ne k name v h rest

theorem find?_append_ne (k name : String) (v : ColTag) (h : k ≠ name) :
    ∀ m : TagMap,
      (m ++ [(k, v)]).find? (fun p => decide (p.1 = name)) =
        m.find? (fun p => decide (p.1 = name))
  | [] => by
    simp only [List.nil_append]
    rw [List.find?_cons_of_neg _ (by simp [h])]
  | p :: rest => by
    by_cases hn : p.1 = name
    · rw [List.cons_append, List.find?_cons_of_pos _ (by simp [hn]),
        List.find?_cons_of_pos _ (by simp [hn])]
    · rw [List.cons_append, List.find?_cons_of_neg _ (by simp [hn]),
        List.find?_cons_of_neg _ (by simp [hn])]
      exact find?_append_ne k name v h rest

theorem tagLookup_tagInsert_ne (m : TagMap) (k : String) (v : ColTag) (name : String)
    (h : k ≠ name) :
    tagLookup (tagInsert m k v) name = tagLookup m name := by
  unfold tagInsert tagLookup
  by_cases hm : m.any (fun p => p.1 = k) = true
  · rw [if_pos hm, find?_replace_ne k name v h m]
  · rw [if_neg hm, find?_append_ne k name v h m]

theorem tagLookup_convertCol_ne (k : String) (cd : ColData) (tags : TagMap) (name : String)
    (h : k ≠ name) :
    tagLookup (convertCol k cd tags).2 name = tagLookup tags name := by
  by_cases hn : is_numeric cd = true
  · simp [convertCol, hn]
  · have hn' : is_numeric cd = false := by simpa using hn
    simp only [convertCol, hn', Bool.false_eq_true, if_false]
    by_cases h1 : (colParsedWith parseTsZ cd).all Option.isSome = true
    · simp [h1, tagLookup_tagInsert_ne tags k _ name h]
    · by_cases h2 : (colParsedWith parseDateOnly cd).all Option.isSome = true
      · simp [h1, h2, tagLookup_tagInsert_ne tags k _ name h]
      · simp [h1, h2]

/-- C6 (amended): the `column_tags` registry is updated incrementally,
never rebuilt: a load only adds or overwrites tags for columns of the
new snapshot, and the entry of any column absent from the new snapshot
persists unchanged across the load. -/
theorem column_tags_incremental_c6_amended
    (df : LoadFrame) (tags : TagMap) (name : String)
    (h : name ∉ df.map Prod.fst) :
    tagLookup (auto_convert_dtypes df tags).2 name = tagLookup tags name := by
  revert h
  induction df generalizing tags with
  | nil =>
    intro h
    rfl
  | cons c rest ih =>
    intro h
    obtain ⟨k, cd⟩ := c
    have hk : k ≠ name := by
      intro he
      exact h (by simp [he])
    have hrest : name ∉ rest.map Prod.fst := by
      intro hm
      exact h (by simp [hm])
    simp only [auto_convert_dtypes]
    rw [ih _ hrest, tagLookup_convertCol_ne k cd tags name hk]

/-- Witness for the amended C6: the stale tag of the dropped column
`A` persists through a fresh conversion of a snapshot without `A`. -/
theorem column_tags_incremental_c6_amended_witness :
    tagLookup (auto_convert_dtypes [("B", ColData.strings [some "2021-03-04"])]
        [("A", ⟨.date, some ⟨2019, 1, 1⟩, some ⟨2019, 1, 1⟩⟩)]).2 "A" =
      tagLookup [("A", ⟨.date, some ⟨2019, 1, 1⟩, some ⟨2019, 1, 1⟩⟩)] "A" :=
  column_tags_incremental_c6_amended [("B", ColData.strings [some "2021-03-04"])]
    [("A", ⟨.date, some ⟨2019, 1, 1⟩, some ⟨2019, 1, 1⟩⟩)] "A" (by decide)

/-! Section: Claim C7 -/

theorem head?_filter_eq_find? {α : Type} (p : α → Bool) :
    ∀ l : List α, (l.filter p).head? = l.find? p
  | [] => rfl
  | a :: t => by
    by_cases h : p a = true
    · rw [List.filter_cons_of_pos h, List.find?_cons_of_pos _ h]
      rfl
    · rw [List.filter_cons_of_neg (by simpa using h),
        List.find?_cons_of_neg _ (by simpa using h)]
      exact head?_filter_eq_find? p t

/-- C7: for a changed column whose store constraint is of char/text
kind with a declared `max_length`, the validator produces exactly one
violation for that column when some non-null new value is over-long —
the message citing the column name, the limit, and the first offending
value in row order — and produces no violation for that column
otherwise; concretely, `max_length = 1` with value `"AB"` yields the
single violation citing `Status`, limit `1` and sample `"AB"`. -/
theorem char_length_validation_c7
    (meta : List ColumnConstraint) (name : String) (row : ColumnConstraint) (m : Int)
    (vals : List (Option String))
    (h1 : metaLookup meta (dbColName name) = some row)
    (h2 : charKindCheck (pyUpper row.data_type) = true)
    (h3 : row.character_maximum_length = some m) :
    (∀ w, (nonNullStr vals).find? (fun v => (v.length : Int) > m) = some w →
      columnErrors meta (name, vals) = .ok [charLenMsg name m w]) ∧
    ((nonNullStr vals).find? (fun v => (v.length : Int) > m) = none →
      columnErrors meta (name, vals) = .ok []) ∧
    validate_changes_against_schema ⟨[("Status", [some "AB"])]⟩
      [⟨"STATUS", "VARCHAR", some 1, none, none⟩] = .ok [charLenMsg "Status" 1 "AB"] := by
  have hbase : columnErrors meta (name, vals) = .ok (charErrors name (some m) vals) := by
    simp only [columnErrors, h1, h2, eq_self_iff_true, if_true, h3]
  refine ⟨?_, ?_, by decide⟩
  · intro w hw
    have hh : ((nonNullStr vals).filter (fun v => (v.length : Int) > m)).head? = some w :=
      (head?_filter_eq_find? _ (nonNullStr vals)).trans hw
    rw [hbase]
    cases hf : (nonNullStr vals).filter (fun v => (v.length : Int) > m) with
    | nil =>
      rw [hf] at hh
      cases hh
    | cons a t =>
      rw [hf] at hh
      have haw : a = w := by
        simpa using hh
      subst haw
      simp only [charErrors, hf]
  · intro hw
    have hh : ((nonNullStr vals).filter (fun v => (v.length : Int) > m)).head? = none :=
      (head?_filter_eq_find? _ (nonNullStr vals)).trans hw
    rw [hbase]
    cases hf : (nonNullStr vals).filter (fun v => (v.length : Int) > m) with
    | nil => simp only [charErrors, hf]
    | cons a t =>
      rw [hf] at hh
      cases hh

/-- Witness for C7 at the concrete `VARCHAR(1)` column with value
`"AB"`. -/
theorem char_length_validation_c7_witness :
    columnErrors [⟨"STATUS", "VARCHAR", some 1, none, none⟩] ("Status", [some "AB"]) =
      .ok [charLenMsg "Status" 1 "AB"] :=
  (char_length_validation_c7 [⟨"STATUS", "VARCHAR", some 1, none, none⟩] "Status"
    ⟨"STATUS", "VARCHAR", some 1, none, none⟩ 1 [some "AB"]
    (by decide) (by decide) rfl).1 "AB" (by decide)

/-! Section: Claim C1 -/

theorem numericColErrors_all_ok (col : String) (p s : Int) :
    ∀ l : List String, (∀ u ∈ l, numClassify p s u = .ok) →
      numericColErrors col p s l = .ok []
  | [], _ => rfl
  | v :: t, h => by
    have hv : numClassify p s v = .ok := h v (List.mem_cons_self v t)
    simp only [numericColErrors, hv]
    exact numericColErrors_all_ok col p s t (fun u hu => h u (List.mem_cons_of_mem v hu))

theorem numericColErrors_append_ok (col : String) (p s : Int) :
    ∀ (pre : List String), (∀ u ∈ pre, numClassify p s u = .ok) →
      ∀ l : List String, numericColErrors col p s (pre ++ l) = numericColErrors col p s l
  | [], _, _ => rfl
  | v :: t, h, l => by
    have hv : numClassify p s v = .ok := h v (List.mem_cons_self v t)
    simp only [List.cons_append, numericColErrors, hv]
    exact numericColErrors_append_ok col p s t (fun u hu => h u (List.mem_cons_of_mem v hu)) l

theorem numeric_not_charKind : ∀ dt ∈ numericTypeNames, charKindCheck dt = false := by
  decide

/-- C1: for a changed column whose store-native name carries a declared
`NUMBER`/`DECIMAL`/`NUMERIC`/`FIXED` constraint with precision `p` and
scale `s`, the validator examines the column's non-null new values in
row order and stops at the first offending value `v` (every earlier
value being in bounds), emitting the one matching violation: the
"not a valid NUMBER(p,s)" message when `v` does not parse as a finite
decimal, the scale message when its fractional digit count exceeds
`s`, and the precision/overflow message when (its fractional digits
being within scale) its integer digits exceed `p - s` or its total
digits exceed `p`; a column whose non-null values are all in bounds
contributes no violation.  Concretely, under `NUMBER(10,2)` the value
`"12.34"` yields no violation and `"1.234"` yields the scale
violation. -/
theorem numeric_validation_c1
    (meta : List ColumnConstraint) (name : String) (row : ColumnConstraint) (p s : Int)
    (vals : List (Option String)) (pre post : List String) (v : String)
    (h1 : metaLookup meta (dbColName name) = some row)
    (h2 : pyUpper row.data_type ∈ numericTypeNames)
    (h3 : row.numeric_precision = some p)
    (h4 : row.numeric_scale.getD 0 = s)
    (h5 : nonNullStr vals = pre ++ v :: post)
    (h6 : ∀ u ∈ pre, numClassify p s u = .ok) :
    (∀ df : ChangesDF, dfEmpty df = false →
      validate_changes_against_schema df meta = collectColumnErrors meta df.cols) ∧
    (pyDecParse v = none →
      columnErrors meta (name, vals) = .ok [numInvalidMsg name p s v]) ∧
    (∀ sg d e, pyDecParse v = some (.finite sg d e) → fracDigitsOf e > s →
      columnErrors meta (name, vals) = .ok [numScaleMsg name s v (fracDigitsOf e)]) ∧
    (∀ sg d e, pyDecParse v = some (.finite sg d e) → fracDigitsOf e ≤ s →
      (intDigitsOf d e > max (p - s) 0 ∨ intDigitsOf d e + fracDigitsOf e > p) →
      columnErrors meta (name, vals) = .ok [numPrecMsg name p s v]) ∧
    ((∀ u ∈ nonNullStr vals, numClassify p s u = .ok) →
      columnErrors meta (name, vals) = .ok []) ∧
    validate_changes_against_schema ⟨[("Amount", [some "12.34"])]⟩
      [⟨"AMOUNT", "NUMBER", none, some 10, some 2⟩] = .ok [] ∧
    validate_changes_against_schema ⟨[("Amount", [some "1.234"])]⟩
      [⟨"AMOUNT", "NUMBER", none, some 10, some 2⟩] =
        .ok [numScaleMsg "Amount" 2 "1.234" 3] := by
  have hck : charKindCheck (pyUpper row.data_type) = false := numeric_not_charKind _ h2
  have hct : numericTypeNames.contains (pyUpper row.data_type) = true := contains_of_mem h2
  have hbase : columnErrors meta (name, vals) =
      numericColErrors name p s (nonNullStr vals) := by
    simp only [columnErrors, h1, hck, Bool.false_eq_true, if_false, hct, if_true, h3, h4]
  have hskip : numericColErrors name p s (nonNullStr vals) =
      numericColErrors name p s (v :: post) := by
    rw [h5]
    exact numericColErrors_append_ok name p s pre h6 (v :: post)
  have hmne : meta.isEmpty = false := by
    cases meta with
    | nil => cases h1
    | cons a t => rfl
  refine ⟨?_, ?_, ?_, ?_, ?_, by decide, by decide⟩
  · intro df hdf
    unfold validate_changes_against_schema
    rw [if_neg (by simp [hdf]), if_neg (by simp [hmne])]
  · intro hp
    have hcl : numClassify p s v = .invalid := by
      simp [numClassify, classifyDec, hp]
    rw [hbase, hskip]
    simp only [numericColErrors, hcl]
  · intro sg d e hp hf
    have hcl : numClassify p s v = .scaleViol (fracDigitsOf e) := by
      simp only [numClassify, hp, classifyDec]
      rw [if_pos hf]
    rw [hbase, hskip]
    simp only [numericColErrors, hcl]
  · intro sg d e hp hf hover
    have hcl : numClassify p s v = .precViol := by
      simp only [numClassify, hp, classifyDec]
      rw [if_neg (not_lt.mpr hf), if_pos]
      rcases hover with hov | hov
      · simp [hov]
      · simp [hov]
    rw [hbase, hskip]
    simp only [numericColErrors, hcl]
  · intro hall
    rw [hbase]
    exact numericColErrors_all_ok name p s (nonNullStr vals) hall

/-- Witness for C1 at the concrete `NUMBER(10,2)` column with value
`"1.234"`, whose first (and only) value is a scale offender. -/
theorem numeric_validation_c1_witness :
    columnErrors [⟨"AMOUNT", "NUMBER", none, some 10, some 2⟩] ("Amount", [some "1.234"]) =
      .ok [numScaleMsg "Amount" 2 "1.234" 3] := by
  have h := (numeric_validation_c1 [⟨"AMOUNT", "NUMBER", none, some 10, some 2⟩] "Amount"
    ⟨"AMOUNT", "NUMBER", none, some 10, some 2⟩ 10 2 [some "1.234"] [] [] "1.234"
    (by decide) (by decide) rfl rfl rfl (by simp)).2.2.1 false [1, 2, 3, 4] (-3)
    (by decide) (by decide)
  have h3 : fracDigitsOf (-3) = 3 := by decide
  rw [h3] at h
  exact h

/-! Section: Claim C9 -/

/-- The canonical literal of the negated value: toggle the optional
leading sign of an (already preprocessed) decimal literal. -/
def negLit : List Char → List Char
  | [] => ['-']
  | c :: r =>
    if c == '-' then r
    else if c == '+' then '-' :: r
    else '-' :: c :: r

theorem parseCoeff_head_not_sign (c : Char) (r : List Char)
    (x : List Nat × Nat × List Char) (h : parseCoeff (c :: r) = some x) :
    c ≠ '-' ∧ c ≠ '+' := by
  constructor <;> intro he <;> subst he <;> revert h
  · have hd : (('-' : Char).isDigit) = false := by decide
    have hq : (('-' : Char) == '.') = false := by decide
    simp [parseCoeff, hd, hq]
  · have hd : (('+' : Char).isDigit) = false := by decide
    have hq : (('+' : Char) == '.') = false := by decide
    simp [parseCoeff, hd, hq]

theorem pyDecParseBody_finite (sg : Bool) (cs : List Char) (sg' : Bool)
    (d : List Nat) (e : Int)
    (h : pyDecParseBody sg cs = some (.finite sg' d e)) :
    sg' = sg ∧ (∀ sg2 : Bool, pyDecParseBody sg2 cs = some (.finite sg2 d e)) ∧
      (∃ x, parseCoeff cs = some x) := by
  unfold pyDecParseBody at h
  cases hc : parseCoeff cs with
  | none =>
    rw [hc] at h
    by_cases hs : isSpecialBody cs = true
    · rw [if_pos hs] at h
      cases h
    · rw [if_neg hs] at h
      cases h
  | some x =>
    obtain ⟨ds, fl, rest⟩ := x
    simp only [hc] at h
    cases he : parseExpPart rest with
    | none =>
      simp only [he] at h
      cases h
    | some ev =>
      simp only [he] at h
      simp only [Option.some.injEq, PyDec.finite.injEq] at h
      obtain ⟨hsg, hd, he2⟩ := h
      refine ⟨hsg.symm, ?_, ⟨_, rfl⟩⟩
      intro sg2
      unfold pyDecParseBody
      rw [hc]
      show (match parseExpPart rest with
            | some ev2 => some (PyDec.finite sg2 (normDigits ds) (ev2 - (fl : Int)))
            | none => none) = some (PyDec.finite sg2 d e)
      rw [he]
      show some (PyDec.finite sg2 (normDigits ds) (ev - (fl : Int))) =
        some (PyDec.finite sg2 d e)
      rw [hd, he2]

theorem pyDecParseChars_not_sign (c : Char) (r : List Char)
    (h1 : (c == '-') = false) (h2 : (c == '+') = false) :
    pyDecParseChars (c :: r) = pyDecParseBody false (c :: r) := by
  simp [pyDecParseChars, h1, h2]

/-- C9: the numeric precision/scale verdict is sign-insensitive.  If a
value parses as a finite decimal with coefficient digits `d` and
exponent `e`, then its sign-toggled literal parses to the same `d` and
`e` with the opposite sign, the validator's verdict on the toggled
literal equals its verdict on the original value, and the verdict
function itself ignores the sign entirely — digit counting is
performed on `copy_abs()`, so a leading minus never counts toward
precision or scale. -/
theorem numeric_sign_insensitive_c9
    (v : String) (p s : Int) (sg : Bool) (d : List Nat) (e : Int)
    (h : pyDecParse v = some (.finite sg d e)) :
    pyDecParseChars (negLit (pyDecPreprocess v)) = some (.finite (!sg) d e) ∧
    classifyDec p s (pyDecParseChars (negLit (pyDecPreprocess v))) = numClassify p s v ∧
    (∀ b1 b2 : Bool, classifyDec p s (some (.finite b1 d e)) =
      classifyDec p s (some (.finite b2 d e))) := by
  have hv : pyDecParseChars (pyDecPreprocess v) = some (.finite sg d e) := h
  have hmain : pyDecParseChars (negLit (pyDecPreprocess v)) = some (.finite (!sg) d e) := by
    cases ht : pyDecPreprocess v with
    | nil =>
      rw [ht] at hv
      have hnone : pyDecParseChars [] = none := by decide
      rw [hnone] at hv
      cases hv
    | cons c r =>
      rw [ht] at hv
      by_cases hm : (c == '-') = true
      · have hc : c = '-' := by simpa using hm
        subst hc
        rw [show pyDecParseChars ('-' :: r) = pyDecParseBody true r from by
          simp [pyDecParseChars]] at hv
        obtain ⟨hsg, hswap, hx⟩ := pyDecParseBody_finite true r sg d e hv
        subst hsg
        obtain ⟨x, hx⟩ := hx
        have hneg : negLit ('-' :: r) = r := by simp [negLit]
        rw [hneg]
        cases r with
        | nil => cases hx
        | cons c2 r2 =>
          obtain ⟨hn1, hn2⟩ := parseCoeff_head_not_sign c2 r2 x hx
          rw [pyDecParseChars_not_sign c2 r2 (by simpa using hn1) (by simpa using hn2)]
          simpa using hswap false
      · by_cases hp : (c == '+') = true
        · have hc : c = '+' := by simpa using hp
          subst hc
          rw [show pyDecParseChars ('+' :: r) = pyDecParseBody false r from by
            simp [pyDecParseChars]] at hv
          obtain ⟨hsg, hswap, hx⟩ := pyDecParseBody_finite false r sg d e hv
          subst hsg
          have hneg : negLit ('+' :: r) = '-' :: r := by simp [negLit]
          rw [hneg]
          rw [show pyDecParseChars ('-' :: r) = pyDecParseBody true r from by
            simp [pyDecParseChars]]
          simpa using hswap true
        · have hm' : (c == '-') = false := by simpa using hm
          have hp' : (c == '+') = false := by simpa using hp
          rw [pyDecParseChars_not_sign c r hm' hp'] at hv
          obtain ⟨hsg, hswap, hx⟩ := pyDecParseBody_finite false (c :: r) sg d e hv
          subst hsg
          have hneg : negLit (c :: r) = '-' :: c :: r := by
            simp [negLit, hm', hp']
          rw [hneg]
          rw [show pyDecParseChars ('-' :: c :: r) = pyDecParseBody true (c :: r) from by
            simp [pyDecParseChars]]
          simpa using hswap true
  refine ⟨hmain, ?_, fun b1 b2 => rfl⟩
  rw [hmain]
  unfold numClassify
  rw [show pyDecParse v = some (.finite sg d e) from h]
  rfl

/-- Witness for C9 at the concrete value `"1.234"` under
`NUMBER(10,2)`: the negated literal `"-1.234"` parses to the same
digits and exponent and receives the same (scale-violation) verdict. -/
theorem numeric_sign_insensitive_c9_witness :
    pyDecParseChars (negLit (pyDecPreprocess "1.234")) =
      some (.finite true [1, 2, 3, 4] (-3)) ∧
    classifyDec 10 2 (pyDecParseChars (negLit (pyDecPreprocess "1.234"))) =
      numClassify 10 2 "1.234" := by
  have h := numeric_sign_insensitive_c9 "1.234" 10 2 false [1, 2, 3, 4] (-3) (by decide)
  exact ⟨h.1, h.2.1⟩
